import Mathlib

/-!
Verification development for a browser-resident task-manager application.

The development shallowly embeds the core of the application:

* the credential directory and login flow (`src/components/auth.js`,
  `MOCK_USERS`, `AuthManager.findUser`, `AuthManager.login`,
  `AuthManager.generateMockToken`, `AuthManager.validateSession`,
  `AuthManager.saveUserSession`, `AuthManager.isAuthenticated`);
* the key-value storage adapter (`src/utils/storage.js`,
  `StorageManager.setItem`, `StorageManager.getItem`);
* the per-owner task collection (`src/script.js`, `loadTasks`, `saveTasks`,
  `handleAddTask`, `handleClearCompleted`).

Strings are modelled as `List Char` where character-level reasoning is
needed.  Platform built-ins used by the source (`btoa`, `atob`,
`JSON.stringify`, `JSON.parse`, `localStorage`) are modelled concretely:
`btoa`/`atob` as real base64 over latin1 character codes, and the JSON
codec at the precision the embedded code exercises it (serialization of the
concrete record shapes the code stringifies, and parsing specialised to
those shapes).  Timestamps (`Date.now()`) are explicit `Nat` clock
parameters.
-/

/-- One decimal digit rendered as a character, as in the decimal rendering
of JavaScript numbers.  Defined by exhaustive cases so that character facts
about digits are decidable by evaluation. -/
def digitCh : Nat → Char
  | 0 => '0'
  | 1 => '1'
  | 2 => '2'
  | 3 => '3'
  | 4 => '4'
  | 5 => '5'
  | 6 => '6'
  | 7 => '7'
  | 8 => '8'
  | _ => '9'

/-- Decimal rendering of a natural number, most significant digit first:
the character stream `JSON.stringify` and string interpolation produce for a
nonnegative integer. -/
def natChars (n : Nat) : List Char :=
  if _h : n < 10 then [digitCh n]
  else natChars (n / 10) ++ [digitCh (n % 10)]
decreasing_by exact Nat.div_lt_self (by omega) (by omega)

/-- Recognises an ASCII decimal digit character. -/
def isDigitCh (c : Char) : Bool := 48 ≤ c.toNat && c.toNat ≤ 57

/-- Consume a maximal run of leading decimal digits, accumulating their
value; returns the value and the unconsumed remainder. -/
def readNatAux : List Char → Nat → Nat × List Char
  | [], acc => (acc, [])
  | c :: rest, acc =>
      if isDigitCh c then readNatAux rest (acc * 10 + (c.toNat - 48))
      else (acc, c :: rest)

/-- Consume characters up to (and including) the next double quote; returns
the consumed body and the remainder, or `none` if no quote follows.  `acc`
holds the already-consumed body reversed. -/
def readStrAux : List Char → List Char → Option (List Char × List Char)
  | [], _ => none
  | c :: rest, acc =>
      if c = '"' then some (acc.reverse, rest) else readStrAux rest (c :: acc)

/-- Strip an expected literal from the front of the input; `none` when the
input does not start with the literal. -/
def stripLit : List Char → List Char → Option (List Char)
  | [], l => some l
  | _ :: _, [] => none
  | p :: ps, c :: cs => if c = p then stripLit ps cs else none

/-- `String.prototype.split('.')`: splits a character stream at every dot,
keeping empty segments, as used by `AuthManager.validateSession` on the
token. -/
def splitOnDot : List Char → List (List Char)
  | [] => [[]]
  | c :: rest =>
      if c = '.' then [] :: splitOnDot rest
      else
        match splitOnDot rest with
        | [] => [[c]]
        | s :: ss => (c :: s) :: ss

/-- The base64 alphabet used by `btoa`. -/
def b64Alphabet : List Char :=
  ("ABCDEFGHIJKLMNOPQRSTUVWXYZabcdefghijklmnopqrstuvwxyz0123456789+/").data

/-- Character for a six-bit group. -/
def b64c (n : Nat) : Char := b64Alphabet.getD n 'A'

/-- Six-bit value of a base64 character (position in the alphabet). -/
def b64v (c : Char) : Nat := b64Alphabet.findIdx (fun a => a == c)

/-- Base64 encoding of a byte sequence (the core of `btoa`): bytes are taken
three at a time into four alphabet characters, with `=` padding. -/
def b64encodeBytes : List Nat → List Char
  | [] => []
  | [a] => [b64c (a / 4), b64c (a % 4 * 16), '=', '=']
  | [a, b] => [b64c (a / 4), b64c (a % 4 * 16 + b / 16), b64c (b % 16 * 4), '=']
  | a :: b :: c :: rest =>
      b64c (a / 4) :: b64c (a % 4 * 16 + b / 16) :: b64c (b % 16 * 4 + c / 64) ::
        b64c (c % 64) :: b64encodeBytes rest

/-- Base64 decoding of a character sequence (the core of `atob`): four
characters at a time, honouring `=` padding, failing on a length that is not
a multiple of four. -/
def b64decodeBytes : List Char → Option (List Nat)
  | [] => some []
  | c1 :: c2 :: c3 :: c4 :: rest =>
      if c3 = '=' then
        if c4 = '=' ∧ rest = [] then some [b64v c1 * 4 + b64v c2 / 16] else none
      else if c4 = '=' then
        if rest = [] then
          some [b64v c1 * 4 + b64v c2 / 16, b64v c2 % 16 * 16 + b64v c3 / 4]
        else none
      else
        match b64decodeBytes rest with
        | some l =>
            some ((b64v c1 * 4 + b64v c2 / 16) :: (b64v c2 % 16 * 16 + b64v c3 / 4) ::
              (b64v c3 % 4 * 64 + b64v c4) :: l)
        | none => none
  | _ => none

/-- `btoa`: base64 over the latin1 codes of the characters. -/
def btoaM (s : List Char) : List Char := b64encodeBytes (s.map Char.toNat)

/-- `atob`: base64 decoding back to characters. -/
def atobM (s : List Char) : Option (List Char) :=
  (b64decodeBytes s).map (fun l => l.map Char.ofNat)

/-- The power of ten just above `n` (the scaling factor of its digit
string). -/
def tenPowAbove (n : Nat) : Nat :=
  if _h : n < 10 then 10 else tenPowAbove (n / 10) * 10
decreasing_by exact Nat.div_lt_self (by omega) (by omega)

/-- JWT-style payload carried by the mock token: the object
`AuthManager.generateMockToken` stringifies (`sub`, `username`, `email`,
`role`, `iat`, `exp`, in that insertion order). -/
structure Payload where
  sub : List Char
  username : List Char
  email : List Char
  role : List Char
  iat : Nat
  exp : Nat
deriving DecidableEq

def rBrace : Char := '\x7d'

def litSub : List Char := ("\x7b\"sub\":\"").data

def litUsername : List Char := (",\"username\":\"").data

def litEmail : List Char := (",\"email\":\"").data

def litRole : List Char := (",\"role\":\"").data

def litIat : List Char := (",\"iat\":").data

def litExp : List Char := (",\"exp\":").data

/-- `JSON.stringify` of the token payload object, field by field in
insertion order.  String fields are emitted verbatim between quotes (the
identities in the directory contain no characters needing JSON escapes). -/
def payloadJson (p : Payload) : List Char :=
  litSub ++ p.sub ++ '"' ::
    (litUsername ++ p.username ++ '"' ::
      (litEmail ++ p.email ++ '"' ::
        (litRole ++ p.role ++ '"' ::
          (litIat ++ natChars p.iat ++ litExp ++ natChars p.exp ++ [rBrace]))))

/-- `JSON.parse` as exercised by `AuthManager.validateSession` on the
payload segment: a parser for exactly the object shape `payloadJson`
produces.  Any other input yields `none` (the code's catch path). -/
def parsePayloadJson (l : List Char) : Option Payload :=
  (stripLit litSub l).bind fun l1 =>
  (readStrAux l1 []).bind fun sl1 =>
  (stripLit litUsername sl1.2).bind fun l2 =>
  (readStrAux l2 []).bind fun sl2 =>
  (stripLit litEmail sl2.2).bind fun l3 =>
  (readStrAux l3 []).bind fun sl3 =>
  (stripLit litRole sl3.2).bind fun l4 =>
  (readStrAux l4 []).bind fun sl4 =>
  (stripLit litIat sl4.2).bind fun l5 =>
  (fun r1 : Nat × List Char =>
    (stripLit litExp r1.2).bind fun l6 =>
    (fun r2 : Nat × List Char =>
      if r2.2 = [rBrace] then some ⟨sl1.1, sl2.1, sl3.1, sl4.1, r1.1, r2.1⟩
      else none) (readNatAux l6 0)) (readNatAux l5 0)

/-- An identity in the static mock user database (`MOCK_USERS` in
`src/components/auth.js`), field order as in the source object literals. -/
structure User where
  id : String
  username : String
  password : String
  email : String
  role : String
deriving DecidableEq

/-- The static credential directory (`MOCK_USERS`). -/
def MOCK_USERS : List User :=
  [⟨"admin123", "admin", "password123", "admin@taskmanager.com", "admin"⟩,
   ⟨"user456", "user", "user123", "user@taskmanager.com", "user"⟩]

/-- `String.prototype.toLowerCase`, modelled character by character (all
directory identifiers are ASCII). -/
def toLowerChars (s : List Char) : List Char := s.map Char.toLower

/-- Whitespace recognised by `String.prototype.trim` (restricted to the
ASCII whitespace characters relevant here). -/
def isWsCh (c : Char) : Bool :=
  c = ' ' || c = '\t' || c = '\n' || c = '\r' || c = '\x0b' || c = '\x0c'

/-- `String.prototype.trim`: drop leading and trailing whitespace. -/
def trimChars (s : List Char) : List Char :=
  ((s.dropWhile isWsCh).reverse.dropWhile isWsCh).reverse

/-- The normalisation `AuthManager.findUser` applies to its first argument:
`usernameOrEmail.toLowerCase().trim()`. -/
def normalizeId (s : String) : List Char := trimChars (toLowerChars s.data)

/-- `AuthManager.findUser`: first directory entry whose username or email
matches the normalised input case-insensitively and whose password matches
exactly. -/
def findUser (usernameOrEmail password : String) : Option User :=
  let normalizedInput := normalizeId usernameOrEmail
  MOCK_USERS.find? fun user =>
    (toLowerChars user.username.data == normalizedInput
        || toLowerChars user.email.data == normalizedInput)
      && user.password == password

/-- The payload `AuthManager.generateMockToken` embeds for `user` when the
clock reads `now`: `iat = Date.now()`, `exp = Date.now() + 24*60*60*1000`. -/
def tokenPayload (u : User) (now : Nat) : Payload :=
  ⟨u.id.data, u.username.data, u.email.data, u.role.data, now,
    now + 24 * 60 * 60 * 1000⟩

/-- `JSON.stringify` of the constant token header object. -/
def headerChars : List Char := ("\x7b\"alg\":\"HS256\",\"typ\":\"JWT\"\x7d").data

/-- `AuthManager.generateMockToken`: three base64 segments (header, payload,
fake signature `btoa('mock-signature-' + user.id)`) joined by dots. -/
def generateMockToken (u : User) (now : Nat) : List Char :=
  btoaM headerChars ++ '.' ::
    (btoaM (payloadJson (tokenPayload u now)) ++ '.' ::
      btoaM (("mock-signature-").data ++ u.id.data))

/-- The decoding performed inside `AuthManager.validateSession`: split the
token on dots, require exactly three segments, `atob` the middle segment and
`JSON.parse` it.  Any failure is the catch path, modelled as `none`.  The
first and third segments are never inspected. -/
def decodeTokenPayload (tok : List Char) : Option Payload :=
  match splitOnDot tok with
  | [_, p2, _] => (atobM p2).bind parsePayloadJson
  | _ => none

/-- The expiry check in `AuthManager.validateSession`:
`Date.now() > payload.exp`. -/
def isExpiredB (now : Nat) (p : Payload) : Bool := decide (p.exp < now)

/-- Character streams safe for the modelled token pipeline: latin1 codes
(so `btoa` round-trips) and no double quote (so the stringified payload
parses back).  All directory identities satisfy this. -/
def goodStr (s : List Char) : Prop := ∀ c ∈ s, c.toNat < 256 ∧ c ≠ '"'

/-- The in-memory `currentUser` record built on successful login
(`auth.js` lines 74-81), field order as in the source object literal.
`loginTime` (an ISO timestamp string in the source) is modelled as the
`Nat` clock reading it renders. -/
structure SessionUser where
  id : String
  username : String
  email : String
  role : String
  isAuthenticated : Bool
  loginTime : Nat
deriving DecidableEq

/-- The authentication process state: the module-level `currentUser` and
`authToken` variables plus the string-valued `localStorage` medium. -/
structure AuthState where
  currentUser : Option SessionUser
  authToken : Option (List Char)
  store : String → Option (List Char)

def litSessId : List Char := ("\x7b\"id\":\"").data

def litSessUsername : List Char := (",\"username\":\"").data

def litSessEmail : List Char := (",\"email\":\"").data

def litSessRole : List Char := (",\"role\":\"").data

def litSessIsAuth : List Char := (",\"isAuthenticated\":").data

def litSessLoginTime : List Char := (",\"loginTime\":\"").data

/-- `JSON.stringify(currentUser)`: the raw string `saveUserSession` writes
under the user-session key.  The ISO login time renders as the decimal
clock reading between quotes. -/
def sessionUserJson (cu : SessionUser) : List Char :=
  litSessId ++ cu.id.data ++ '"' ::
    (litSessUsername ++ cu.username.data ++ '"' ::
      (litSessEmail ++ cu.email.data ++ '"' ::
        (litSessRole ++ cu.role.data ++ '"' ::
          (litSessIsAuth ++
            (if cu.isAuthenticated then ("true").data else ("false").data) ++
            litSessLoginTime ++ natChars cu.loginTime ++ '"' :: [rBrace]))))

/-- `AuthManager.saveUserSession`: three raw `localStorage.setItem` writes —
the token string itself, the stringified session record, and the login
timestamp.  No envelope is applied on this path. -/
def saveSessionStore (cu : SessionUser) (tok : List Char) (now : Nat)
    (s : String → Option (List Char)) : String → Option (List Char) :=
  fun k =>
    if k = "taskManager_authToken" then some tok
    else if k = "taskManager_userSession" then some (sessionUserJson cu)
    else if k = "taskManager_loginTime" then some (natChars now)
    else s k

/-- Result object of `AuthManager.login`. -/
structure LoginResult where
  success : Bool
  error : Option String
  user : Option SessionUser
  token : Option (List Char)
deriving DecidableEq

/-- `AuthManager.login`: reject empty fields, look the user up in the
directory, and only on a match build the session, generate the token and
persist both.  The thrown-and-caught errors surface as a failure result;
on the failure paths nothing is mutated. -/
def login (st : AuthState) (usernameOrEmail password : String) (now : Nat) :
    LoginResult × AuthState :=
  if usernameOrEmail = "" ∨ password = "" then
    (⟨false, some ("Username and password are required"), none, none⟩, st)
  else
    match findUser usernameOrEmail password with
    | none => (⟨false, some ("Invalid username or password"), none, none⟩, st)
    | some u =>
        let cu : SessionUser := ⟨u.id, u.username, u.email, u.role, true, now⟩
        let tok := generateMockToken u now
        (⟨true, none, some cu, some tok⟩,
         ⟨some cu, some tok, saveSessionStore cu tok now st.store⟩)

/-- `AuthManager.isAuthenticated`:
`currentUser !== null && currentUser.isAuthenticated === true`. -/
def isAuthenticatedM (st : AuthState) : Bool :=
  match st.currentUser with
  | none => false
  | some cu => cu.isAuthenticated

/-- The state effect of `AuthManager.logout` as invoked from
`validateSession`: clear the in-memory session and remove the three
session keys from storage. -/
def logoutState (st : AuthState) : AuthState :=
  ⟨none, none, fun k =>
    if k = "taskManager_authToken" ∨ k = "taskManager_userSession" ∨
        k = "taskManager_loginTime" then none
    else st.store k⟩

/-- `AuthManager.validateSession`: with a current user and token present,
decode the token (three segments, `atob`, `JSON.parse`) and compare the
expiry against the clock; any decode failure or expiry forces a logout.
Without a session it returns false and changes nothing. -/
def validateSession (st : AuthState) (now : Nat) : Bool × AuthState :=
  match st.currentUser, st.authToken with
  | some _, some tok =>
      match decodeTokenPayload tok with
      | none => (false, logoutState st)
      | some p => if p.exp < now then (false, logoutState st) else (true, st)
  | _, _ => (false, st)

/-- A task record as stored in the per-owner task list (`src/script.js`):
`id` is the creation clock reading, `userId` is absent on legacy records. -/
structure RawTask where
  id : Nat
  text : String
  completed : Bool
  createdAt : String
  userId : Option String
deriving DecidableEq

/-- A parsed cell of the task medium: either a JSON task array or any other
stored value (non-array JSON, or text `JSON.parse` rejects — both reach the
catch path of `loadTasks`). -/
inductive TCell where
  | tasks (l : List RawTask)
  | other
deriving DecidableEq

/-- The task-facing view of `localStorage`: since `saveTasks` writes
`JSON.stringify(tasks)` and `loadTasks` reads it back through `JSON.parse`
(mutually inverse on these values), the medium is modelled at the parsed
level, keyed by storage key. -/
def TaskStore : Type := String → Option TCell

/-- The owner-scoped storage key: `tasks_<ownerId>`. -/
def taskKey (uid : String) : String := "tasks_" ++ uid

/-- `saveTasks`: serialize the whole in-memory list under the active
owner's key (`localStorage.setItem(userTaskKey, JSON.stringify(tasks))`). -/
def saveTasksStore (uid : String) (l : List RawTask) (store : TaskStore) :
    TaskStore :=
  fun k => if k = taskKey uid then some (TCell.tasks l) else store k

/-- JavaScript truthiness of the optional `userId` field: absent (or
`undefined`) and the empty string are falsy. -/
def jsTruthyId : Option String → Bool
  | none => false
  | some s => !(s == "")

/-- The ownership repair pass of `loadTasks`: keep records whose `userId`
is falsy or equals the active owner
(`!task.userId || task.userId === currentUser.id`), then stamp falsy
`userId` fields with the active owner
(`userId: task.userId || currentUser.id`). -/
def repairTasks (uid : String) (l : List RawTask) : List RawTask :=
  (l.filter fun t => !(jsTruthyId t.userId) || t.userId == some uid).map
    fun t => if jsTruthyId t.userId then t else { t with userId := some uid }

/-- `loadTasks`: read only the owner-scoped key; on a stored task array run
the repair pass and immediately persist the repaired list; on an absent or
non-array value leave the list empty and the medium untouched (the
falsy/catch paths). -/
def loadTasks (uid : String) (store : TaskStore) : List RawTask × TaskStore :=
  match store (taskKey uid) with
  | none => ([], store)
  | some TCell.other => ([], store)
  | some (TCell.tasks l) =>
      (repairTasks uid l, saveTasksStore uid (repairTasks uid l) store)

/-- Outcome of `handleAddTask`: early return on empty trimmed text, early
return (redirect) when not authenticated, otherwise the appended record. -/
inductive AddOutcome where
  | emptyText
  | notAuthenticated
  | added (t : RawTask)
deriving DecidableEq

/-- `String.prototype.trim` packaged back into a `String`
(`taskInput.value.trim()` in `handleAddTask`). -/
def trimS (s : String) : String := String.mk (trimChars s.data)

/-- `handleAddTask`: trim the input; if empty, return with no change; if
the session is gone, redirect with no change; otherwise append one record
(`id = Date.now()`, `completed = false`, owner = current user) and persist.
`now` is the clock reading and `createdAt` its ISO rendering. -/
def handleAddTask (input : String) (authed : Bool) (uid : String) (now : Nat)
    (createdAt : String) (l : List RawTask) (store : TaskStore) :
    AddOutcome × List RawTask × TaskStore :=
  let taskText := trimS input
  if taskText = "" then (AddOutcome.emptyText, l, store)
  else if !authed then (AddOutcome.notAuthenticated, l, store)
  else
    let t : RawTask := ⟨now, trimS input, false, createdAt, some uid⟩
    (AddOutcome.added t, l ++ [t], saveTasksStore uid (l ++ [t]) store)

/-- `handleClearCompleted`: count the completed records; when none, return
immediately; otherwise drop them all, persist, and announce the count. -/
def handleClearCompleted (l : List RawTask) (uid : String) (store : TaskStore) :
    Nat × List RawTask × TaskStore :=
  let completedCount := (l.filter fun t => t.completed).length
  if completedCount = 0 then (0, l, store)
  else
    (completedCount, l.filter fun t => !t.completed,
     saveTasksStore uid (l.filter fun t => !t.completed) store)

def litEnvValue : List Char := ("\x7b\"value\":").data

def litEnvTimestamp : List Char := (",\"timestamp\":").data

def litEnvType : List Char := (",\"type\":\"").data

/-- The string `StorageManager.setItem` writes: the serialized envelope
object `JSON.stringify` produces from `value`, `timestamp` and `type`,
given the serialization `inner` of the value and the `typeof` tag. -/
def setItemString (inner tag : List Char) (t : Nat) : List Char :=
  litEnvValue ++ inner ++ litEnvTimestamp ++ natChars t ++ litEnvType ++ tag ++
    '"' :: [rBrace]

def litTaskId : List Char := ("\x7b\"id\":").data

def litTaskText : List Char := (",\"text\":\"").data

def litTaskCompleted : List Char := (",\"completed\":").data

def litTaskCreatedAt : List Char := (",\"createdAt\":\"").data

def litTaskUserId : List Char := (",\"userId\":\"").data

/-- `JSON.stringify` of one task record, fields in insertion order; an
absent `userId` is omitted, as `JSON.stringify` omits missing fields. -/
def taskJsonChars (t : RawTask) : List Char :=
  litTaskId ++ natChars t.id ++ litTaskText ++ t.text.data ++ '"' ::
    (litTaskCompleted ++ (if t.completed then ("true").data else ("false").data) ++
      litTaskCreatedAt ++ t.createdAt.data ++ '"' ::
        (match t.userId with
         | some uid => litTaskUserId ++ uid.data ++ '"' :: [rBrace]
         | none => [rBrace]))

/-- Comma-joined concatenation of serialized array elements. -/
def joinComma : List (List Char) → List Char
  | [] => []
  | [x] => x
  | x :: xs => x ++ ',' :: joinComma xs

/-- `JSON.stringify` of the whole task array: the raw string `saveTasks`
stores under the owner-scoped key, with no envelope around it. -/
def saveTasksString (l : List RawTask) : List Char :=
  '[' :: (joinComma (l.map taskJsonChars) ++ [']'])

/-- JSON values, as produced by `JSON.parse`. -/
inductive JVal where
  | null
  | bool (b : Bool)
  | num (n : Int)
  | str (s : String)
  | arr (l : List JVal)
  | obj (fields : List (String × JVal))

/-- What a raw `localStorage` entry looks like to `StorageManager.getItem`
after `localStorage.getItem` and `JSON.parse`: absent key, the literal text
`undefined` (found specially in the source; `JSON.parse` rejects it), any
other text `JSON.parse` rejects, or a successfully parsed JSON value. -/
inductive RawEntry where
  | absent
  | undefinedText
  | malformed
  | stored (v : JVal)

/-- `parsed.hasOwnProperty('value')` for a parsed JSON value: true exactly
for objects with a `value` field (primitives box to property-less wrappers;
arrays own only index/length properties). -/
def hasValueProp : JVal → Bool
  | JVal.obj fields => fields.any fun kv => kv.1 == "value"
  | _ => false

/-- Property access `parsed.value` on a parsed object: the last binding
wins, as with duplicate keys in `JSON.parse`. -/
def objValueField (fields : List (String × JVal)) : JVal :=
  match fields.reverse.find? (fun kv => kv.1 == "value") with
  | some kv => kv.2
  | none => JVal.null

/-- `StorageManager.getItem` over the parsed view of the stored entry:
absent entries yield the default; entries `JSON.parse` rejects (including
the text `undefined`) reach the catch path and yield the default; a parsed
`null` makes `hasOwnProperty` throw, again yielding the default; an
envelope-shaped object yields its `value` field; anything else is a legacy
plain value, returned re-parsed.  The function is total: no input throws. -/
def getItemM (e : RawEntry) (dflt : JVal) : JVal :=
  match e with
  | RawEntry.absent => dflt
  | RawEntry.undefinedText => dflt
  | RawEntry.malformed => dflt
  | RawEntry.stored v =>
      match v with
      | JVal.null => dflt
      | JVal.obj fields =>
          if fields.any (fun kv => kv.1 == "value") then objValueField fields
          else JVal.obj fields
      | w => w

def demoOwnedAdmin : RawTask := ⟨1, ("a"), false, ("t"), some ("admin123")⟩

def demoOwnedOther : RawTask := ⟨2, ("b"), false, ("t"), some ("user456")⟩

def demoLegacy : RawTask := ⟨3, ("c"), true, ("t"), none⟩

def demoList : List RawTask := [demoOwnedAdmin, demoOwnedOther, demoLegacy]

def demoStore : TaskStore :=
  fun k => if k = taskKey ("admin123") then some (TCell.tasks demoList) else none

def demoStore2 : TaskStore :=
  fun k =>
    if k = taskKey ("admin123") then some (TCell.tasks demoList)
    else some TCell.other

def adminUser : User :=
  ⟨"admin123", "admin", "password123", "admin@taskmanager.com", "admin"⟩

theorem b64Alphabet_length : b64Alphabet.length = 64 := by decide

theorem b64v_b64c : ∀ n, n < 64 → b64v (b64c n) = n := by decide

theorem b64c_ne_eq (n : Nat) : b64c n ≠ '=' := by
  rcases Nat.lt_or_ge n 64 with h | h
  · exact (by decide : ∀ m, m < 64 → b64c m ≠ '=') n h
  · unfold b64c
    rw [List.getD_eq_default _ _ (by rw [b64Alphabet_length]; exact h)]
    decide

theorem b64c_ne_dot (n : Nat) : b64c n ≠ '.' := by
  rcases Nat.lt_or_ge n 64 with h | h
  · exact (by decide : ∀ m, m < 64 → b64c m ≠ '.') n h
  · unfold b64c
    rw [List.getD_eq_default _ _ (by rw [b64Alphabet_length]; exact h)]
    decide

theorem b64decode_encode :
    ∀ l : List Nat, (∀ x ∈ l, x < 256) → b64decodeBytes (b64encodeBytes l) = some l := by
  intro l
  induction l using b64encodeBytes.induct with
  | case1 => intro _; rfl
  | case2 a =>
      intro h
      have ha : a < 256 := h a (by simp)
      simp only [b64encodeBytes, b64decodeBytes, eq_self_iff_true, and_self, if_true]
      rw [b64v_b64c _ (by omega), b64v_b64c _ (by omega)]
      simp only [Option.some.injEq, List.cons.injEq, and_true]
      omega
  | case3 a b =>
      intro h
      have ha : a < 256 := h a (by simp)
      have hb : b < 256 := h b (by simp)
      simp only [b64encodeBytes, b64decodeBytes, b64c_ne_eq, if_false, if_true,
        eq_self_iff_true, and_self]
      rw [b64v_b64c _ (by omega), b64v_b64c _ (by omega), b64v_b64c _ (by omega)]
      simp only [Option.some.injEq, List.cons.injEq, and_true]
      omega
  | case4 a b c rest ih =>
      intro h
      have ha : a < 256 := h a (by simp)
      have hb : b < 256 := h b (by simp)
      have hc : c < 256 := h c (by simp)
      have hrest : ∀ x ∈ rest, x < 256 := fun x hx => h x (by simp [hx])
      simp only [b64encodeBytes, b64decodeBytes, b64c_ne_eq, if_false]
      rw [ih hrest]
      rw [b64v_b64c _ (by omega), b64v_b64c _ (by omega), b64v_b64c _ (by omega),
        b64v_b64c _ (by omega)]
      simp only [Option.some.injEq, List.cons.injEq]
      refine ⟨by omega, by omega, by omega, trivial⟩

theorem b64encode_no_dot : ∀ l : List Nat, '.' ∉ b64encodeBytes l := by
  intro l
  induction l using b64encodeBytes.induct with
  | case1 => simp [b64encodeBytes]
  | case2 a =>
      simp only [b64encodeBytes, List.mem_cons, List.not_mem_nil, or_false]
      push_neg
      exact ⟨(b64c_ne_dot _).symm, (b64c_ne_dot _).symm, by decide, by decide⟩
  | case3 a b =>
      simp only [b64encodeBytes, List.mem_cons, List.not_mem_nil, or_false]
      push_neg
      exact ⟨(b64c_ne_dot _).symm, (b64c_ne_dot _).symm, (b64c_ne_dot _).symm, by decide⟩
  | case4 a b c rest ih =>
      simp only [b64encodeBytes, List.mem_cons]
      push_neg
      exact ⟨(b64c_ne_dot _).symm, (b64c_ne_dot _).symm, (b64c_ne_dot _).symm,
        (b64c_ne_dot _).symm, ih⟩

theorem atobM_btoaM (s : List Char) (h : ∀ c ∈ s, c.toNat < 256) :
    atobM (btoaM s) = some s := by
  unfold atobM btoaM
  rw [b64decode_encode (s.map Char.toNat) (by
    intro x hx
    rcases List.mem_map.mp hx with ⟨c, hc, rfl⟩
    exact h c hc)]
  simp only [Option.map_some', Option.some.injEq, List.map_map]
  have : Char.ofNat ∘ Char.toNat = id := by
    funext c
    exact Char.ofNat_toNat c
  rw [this, List.map_id]

theorem digitCh_props : ∀ m, m < 10 →
    isDigitCh (digitCh m) = true ∧ (digitCh m).toNat - 48 = m ∧
      48 ≤ (digitCh m).toNat ∧ (digitCh m).toNat ≤ 57 := by decide

theorem natChars_mem : ∀ n, ∀ c ∈ natChars n, ∃ m, m < 10 ∧ c = digitCh m := by
  intro n
  induction n using natChars.induct with
  | case1 n h =>
      intro c hc
      rw [natChars, dif_pos h] at hc
      simp only [List.mem_singleton] at hc
      exact ⟨n % 10, by omega, by subst hc; congr 1; omega⟩
  | case2 n h ih =>
      intro c hc
      rw [natChars, dif_neg h] at hc
      rcases List.mem_append.mp hc with h1 | h1
      · exact ih c h1
      · simp only [List.mem_singleton] at h1
        exact ⟨n % 10, by omega, h1⟩

theorem readNatAux_natChars :
    ∀ n acc rest, readNatAux (natChars n ++ rest) acc =
      readNatAux rest (acc * tenPowAbove n + n) := by
  intro n
  induction n using natChars.induct with
  | case1 n h =>
      intro acc rest
      rw [natChars, dif_pos h, tenPowAbove, dif_pos h]
      have hd := digitCh_props n h
      simp only [List.singleton_append, readNatAux, hd.1, if_true, hd.2.1,
        List.append_eq, List.nil_append]
  | case2 n h ih =>
      intro acc rest
      rw [natChars, dif_neg h, tenPowAbove, dif_neg h]
      have hd := digitCh_props (n % 10) (by omega)
      have hval : (digitCh (n % 10)).toNat = n % 10 + 48 := by omega
      rw [List.append_assoc, List.singleton_append, ih]
      simp only [readNatAux, hd.1, if_true, hval]
      congr 1
      have hb : acc * (tenPowAbove (n / 10) * 10) = acc * tenPowAbove (n / 10) * 10 := by
        ring
      omega

theorem readNatAux_natChars_stop (n : Nat) (c : Char) (rest : List Char)
    (hc : isDigitCh c = false) :
    readNatAux (natChars n ++ (c :: rest)) 0 = (n, c :: rest) := by
  rw [readNatAux_natChars]
  simp [readNatAux, hc]

theorem readStrAux_append (s : List Char) (hs : '"' ∉ s) :
    ∀ acc r, readStrAux (s ++ '"' :: r) acc = some (acc.reverse ++ s, r) := by
  induction s with
  | nil => intro acc r; simp [readStrAux]
  | cons c s' ih =>
      intro acc r
      have hc : c ≠ '"' := fun hc => hs (by simp [hc])
      have hs' : '"' ∉ s' := fun hm => hs (by simp [hm])
      simp only [List.cons_append, readStrAux, if_neg hc, List.append_eq, ih hs']
      simp

theorem stripLit_append : ∀ p r, stripLit p (p ++ r) = some r := by
  intro p
  induction p with
  | nil => intro r; rfl
  | cons c p' ih => intro r; simp [stripLit, ih]

theorem splitOnDot_ne_nil : ∀ l, splitOnDot l ≠ [] := by
  intro l
  induction l with
  | nil => simp [splitOnDot]
  | cons c rest ih =>
      simp only [splitOnDot]
      split
      · simp
      · rcases h : splitOnDot rest with _ | ⟨s, ss⟩
        · exact absurd h ih
        · simp

theorem splitOnDot_no_dot : ∀ l : List Char, '.' ∉ l → splitOnDot l = [l] := by
  intro l
  induction l with
  | nil => intro _; rfl
  | cons c rest ih =>
      intro h
      have hc : c ≠ '.' := fun hc => h (by simp [hc])
      have hr : '.' ∉ rest := fun hm => h (by simp [hm])
      simp only [splitOnDot, if_neg hc, ih hr]

theorem splitOnDot_append (a : List Char) (ha : '.' ∉ a) (r : List Char) :
    splitOnDot (a ++ '.' :: r) = a :: splitOnDot r := by
  induction a with
  | nil => simp [splitOnDot]
  | cons c a' ih =>
      have hc : c ≠ '.' := fun hc => ha (by simp [hc])
      have ha' : '.' ∉ a' := fun hm => ha (by simp [hm])
      simp only [List.cons_append, splitOnDot, if_neg hc, List.append_eq, ih ha']

theorem readNatAux_before_litExp (n : Nat) (X : List Char) :
    readNatAux (natChars n ++ (litExp ++ X)) 0 = (n, litExp ++ X) := by
  have h : litExp ++ X = ',' :: ((("\"exp\":").data) ++ X) := rfl
  rw [h, readNatAux_natChars_stop _ _ _ (by decide), ← h]

theorem parsePayload_payloadJson (p : Payload)
    (h1 : '"' ∉ p.sub) (h2 : '"' ∉ p.username) (h3 : '"' ∉ p.email)
    (h4 : '"' ∉ p.role) :
    parsePayloadJson (payloadJson p) = some p := by
  unfold parsePayloadJson payloadJson
  simp only [List.append_assoc]
  rw [stripLit_append]
  simp only [Option.some_bind]
  rw [readStrAux_append _ h1]
  simp only [Option.some_bind, List.reverse_nil, List.nil_append]
  rw [stripLit_append]
  simp only [Option.some_bind]
  rw [readStrAux_append _ h2]
  simp only [Option.some_bind, List.reverse_nil, List.nil_append]
  rw [stripLit_append]
  simp only [Option.some_bind]
  rw [readStrAux_append _ h3]
  simp only [Option.some_bind, List.reverse_nil, List.nil_append]
  rw [stripLit_append]
  simp only [Option.some_bind]
  rw [readStrAux_append _ h4]
  simp only [Option.some_bind, List.reverse_nil, List.nil_append]
  rw [stripLit_append]
  simp only [Option.some_bind]
  rw [readNatAux_before_litExp]
  rw [stripLit_append]
  simp only [Option.some_bind]
  rw [readNatAux_natChars_stop _ rBrace [] (by decide)]
  simp

theorem natChars_lt256 : ∀ n : Nat, ∀ c ∈ natChars n, c.toNat < 256 := by
  intro n c hc
  rcases natChars_mem n c hc with ⟨m, hm, rfl⟩
  have := digitCh_props m hm
  omega

theorem payloadJson_ascii (p : Payload)
    (h1 : goodStr p.sub) (h2 : goodStr p.username) (h3 : goodStr p.email)
    (h4 : goodStr p.role) :
    ∀ c ∈ payloadJson p, c.toNat < 256 := by
  unfold payloadJson
  simp only [List.forall_mem_append, List.forall_mem_cons, List.forall_mem_singleton]
  repeat' apply And.intro
  all_goals
    first
    | decide
    | (intro c hc; exact (h1 c hc).1)
    | (intro c hc; exact (h2 c hc).1)
    | (intro c hc; exact (h3 c hc).1)
    | (intro c hc; exact (h4 c hc).1)
    | exact natChars_lt256 p.iat
    | exact natChars_lt256 p.exp

theorem decode_generate (u : User) (now : Nat)
    (hid : goodStr u.id.data) (hun : goodStr u.username.data)
    (hem : goodStr u.email.data) (hro : goodStr u.role.data) :
    decodeTokenPayload (generateMockToken u now) = some (tokenPayload u now) := by
  unfold decodeTokenPayload generateMockToken
  have hd1 : ('.' : Char) ∉ btoaM headerChars := b64encode_no_dot _
  have hd2 : ('.' : Char) ∉ btoaM (payloadJson (tokenPayload u now)) :=
    b64encode_no_dot _
  have hd3 : ('.' : Char) ∉ btoaM (("mock-signature-").data ++ u.id.data) :=
    b64encode_no_dot _
  rw [splitOnDot_append _ hd1 _, splitOnDot_append _ hd2 _, splitOnDot_no_dot _ hd3]
  have hpl : ∀ c ∈ payloadJson (tokenPayload u now), c.toNat < 256 :=
    payloadJson_ascii _ hid hun hem hro
  show (atobM (btoaM (payloadJson (tokenPayload u now)))).bind parsePayloadJson =
    some (tokenPayload u now)
  rw [atobM_btoaM _ hpl]
  simp only [Option.some_bind]
  exact parsePayload_payloadJson _ (fun hq => ((hid _ hq).2 rfl).elim)
    (fun hq => ((hun _ hq).2 rfl).elim) (fun hq => ((hem _ hq).2 rfl).elim)
    (fun hq => ((hro _ hq).2 rfl).elim)

theorem mem_repairTasks (uid : String) (l : List RawTask) (t' : RawTask) :
    t' ∈ repairTasks uid l ↔
      ∃ t ∈ l,
        (jsTruthyId t.userId = true ∧ t.userId = some uid ∧ t' = t)
        ∨ (jsTruthyId t.userId = false ∧ t' = { t with userId := some uid }) := by
  unfold repairTasks
  simp only [List.mem_map, List.mem_filter]
  constructor
  · rintro ⟨t, ⟨ht, hp⟩, heq⟩
    refine ⟨t, ht, ?_⟩
    cases hj : jsTruthyId t.userId with
    | false =>
        right
        refine ⟨rfl, ?_⟩
        rw [← heq]
        simp [hj]
    | true =>
        left
        have huid : t.userId = some uid := by
          rw [hj] at hp
          simpa using hp
        refine ⟨rfl, huid, ?_⟩
        rw [← heq]
        simp [hj]
  · rintro ⟨t, ht, ⟨hj, huid, heq⟩ | ⟨hj, heq⟩⟩
    · subst heq
      exact ⟨t', ⟨ht, by simp [hj, huid]⟩, by simp [hj]⟩
    · subst heq
      exact ⟨t, ⟨ht, by simp [hj]⟩, by simp [hj]⟩

theorem repairTasks_userId (uid : String) (l : List RawTask) :
    ∀ t' ∈ repairTasks uid l, t'.userId = some uid := by
  intro t' ht'
  rcases (mem_repairTasks uid l t').mp ht' with ⟨t, _, ⟨_, huid, rfl⟩ | ⟨_, rfl⟩⟩
  · exact huid
  · rfl

/-- C7: an input whose trimmed form is empty is rejected with no change to
the list or the medium, for any authentication state; an input with
non-empty trim (with the user authenticated) appends exactly one record
carrying the trimmed text, `completed = false` and the active owner's id,
and persists the grown list under the owner's key. -/
theorem C7_empty_text_add :
    (∀ (input : String) (authed : Bool) (uid : String) (now : Nat)
        (createdAt : String) (l : List RawTask) (store : TaskStore),
        trimS input = "" →
          handleAddTask input authed uid now createdAt l store =
            (AddOutcome.emptyText, l, store))
    ∧ (∀ (input : String) (uid : String) (now : Nat) (createdAt : String)
        (l : List RawTask) (store : TaskStore),
        trimS input ≠ "" →
          handleAddTask input true uid now createdAt l store =
            (AddOutcome.added ⟨now, trimS input, false, createdAt, some uid⟩,
             l ++ [⟨now, trimS input, false, createdAt, some uid⟩],
             saveTasksStore uid
               (l ++ [⟨now, trimS input, false, createdAt, some uid⟩]) store)
          ∧ (handleAddTask input true uid now createdAt l store).2.1.length =
              l.length + 1
          ∧ (handleAddTask input true uid now createdAt l store).2.2
              (taskKey uid) =
              some (TCell.tasks
                (l ++ [⟨now, trimS input, false, createdAt, some uid⟩]))) := by
  constructor
  · intro input authed uid now createdAt l store h
    simp [handleAddTask, h]
  · intro input uid now createdAt l store h
    refine ⟨by simp [handleAddTask, h], by simp [handleAddTask, h],
      by simp [handleAddTask, h, saveTasksStore]⟩

theorem C7_empty_text_add_witness :
    trimS ("   ") = ("" : String) ∧ trimS ("  buy milk ") ≠ ("" : String) ∧
      handleAddTask ("   ") true ("admin123") 5 ("t0") []
          (fun _ => (none : Option TCell)) =
        (AddOutcome.emptyText, [], fun _ => (none : Option TCell)) ∧
      (handleAddTask ("  buy milk ") true ("admin123") 5 ("t0") []
          (fun _ => (none : Option TCell))).2.1 =
        [⟨5, trimS ("  buy milk "), false, ("t0"), some ("admin123")⟩] :=
  ⟨by decide, by decide,
   C7_empty_text_add.1 ("   ") true ("admin123") 5 ("t0") []
     (fun _ => (none : Option TCell)) (by decide),
   by
     rw [(C7_empty_text_add.2 ("  buy milk ") ("admin123") 5 ("t0") []
       (fun _ => (none : Option TCell)) (by decide)).1]
     rfl⟩

/-- C8: `handleClearCompleted` returns the number of completed records and
leaves exactly the non-completed ones; running it again immediately
afterwards (on the resulting list and medium) returns a count of zero. -/
theorem C8_clear_completed_idempotent :
    ∀ (l : List RawTask) (uid : String) (store : TaskStore),
      (handleClearCompleted l uid store).1 =
        (l.filter fun t => t.completed).length
      ∧ (handleClearCompleted l uid store).2.1 = l.filter (fun t => !t.completed)
      ∧ (handleClearCompleted (handleClearCompleted l uid store).2.1 uid
          (handleClearCompleted l uid store).2.2).1 = 0 := by
  intro l uid store
  have hff : ∀ m : List RawTask,
      (m.filter fun t => !t.completed).filter (fun t => t.completed) = [] := by
    intro m
    rw [List.filter_filter]
    have : ∀ t : RawTask, (t.completed && !t.completed) = false := by
      intro t; cases t.completed <;> rfl
    simp only [this, List.filter_false]
  by_cases h : (l.filter fun t => t.completed).length = 0
  · have hnil : l.filter (fun t => t.completed) = [] := List.length_eq_zero.mp h
    have hself : l.filter (fun t => !t.completed) = l := by
      rw [List.filter_eq_self]
      intro t ht
      have : ¬(t.completed = true) := by
        intro hc
        have : t ∈ l.filter (fun t => t.completed) := List.mem_filter.mpr ⟨ht, hc⟩
        simp [hnil] at this
      simp [this]
    refine ⟨?_, ?_, ?_⟩ <;> simp [handleClearCompleted, h, hself]
  · refine ⟨?_, ?_, ?_⟩
    · simp [handleClearCompleted, h]
    · simp [handleClearCompleted, h]
    · simp [handleClearCompleted, h, hff]

/-- C9: the adapter read is a total function of the stored entry — absent
keys, the literal text `undefined`, unparseable text, and entries parsing
to `null` all yield the supplied default; a parsed object with a `value`
field yields that field; any other parsed value is returned as the legacy
plain value. -/
theorem C9_getItem_fails_closed :
    ∀ dflt : JVal,
      getItemM RawEntry.absent dflt = dflt
      ∧ getItemM RawEntry.undefinedText dflt = dflt
      ∧ getItemM RawEntry.malformed dflt = dflt
      ∧ getItemM (RawEntry.stored JVal.null) dflt = dflt
      ∧ (∀ v : JVal, hasValueProp v = false → v ≠ JVal.null →
          getItemM (RawEntry.stored v) dflt = v)
      ∧ (∀ fields : List (String × JVal),
          (fields.any fun kv => kv.1 == "value") = true →
            getItemM (RawEntry.stored (JVal.obj fields)) dflt =
              objValueField fields) := by
  intro dflt
  refine ⟨rfl, rfl, rfl, rfl, ?_, ?_⟩
  · intro v hv hnull
    cases v with
    | null => exact absurd rfl hnull
    | obj fields =>
        simp only [hasValueProp] at hv
        simp [getItemM, hv]
    | bool b => rfl
    | num n => rfl
    | str s => rfl
    | arr l => rfl
  · intro fields hf
    simp [getItemM, hf]

theorem C9_getItem_fails_closed_witness :
    hasValueProp (JVal.str ("x")) = false ∧
      getItemM (RawEntry.stored (JVal.str ("x"))) (JVal.num 7) = JVal.str ("x") ∧
      (([(("value" : String), JVal.num 3)]).any fun kv => kv.1 == "value") = true ∧
      getItemM (RawEntry.stored (JVal.obj [(("value" : String), JVal.num 3)]))
          (JVal.num 7) =
        objValueField [(("value" : String), JVal.num 3)] :=
  ⟨rfl,
   (C9_getItem_fails_closed (JVal.num 7)).2.2.2.2.1 (JVal.str ("x")) rfl
     (fun h => JVal.noConfusion h),
   rfl,
   (C9_getItem_fails_closed (JVal.num 7)).2.2.2.2.2
     [(("value" : String), JVal.num 3)] rfl⟩

theorem taskKey_inj : ∀ a b : String, taskKey a = taskKey b → a = b := by
  intro a b h
  unfold taskKey at h
  have hd := congrArg String.data h
  simp only [String.data_append] at hd
  exact String.ext (List.append_cancel_left hd)

/-- C1: `loadTasks` for owner `uid` reads only the key `tasks_<uid>` and
writes no other key; every returned record carries `userId = uid`; the
repair pass keeps exactly the records whose `userId` is unset (stamping
them) or already equals `uid`, dropping those set to another owner; on a
stored task array the repaired list is persisted back immediately; and a
list saved under a different owner never influences what `loadTasks`
returns. -/
theorem C1_load_ownership_isolation :
    (∀ (uid : String) (s1 s2 : TaskStore),
        s1 (taskKey uid) = s2 (taskKey uid) →
          (loadTasks uid s1).1 = (loadTasks uid s2).1)
    ∧ (∀ (uid : String) (s : TaskStore) (k : String),
        k ≠ taskKey uid → (loadTasks uid s).2 k = s k)
    ∧ (∀ (uid : String) (s : TaskStore), ∀ t ∈ (loadTasks uid s).1,
        t.userId = some uid)
    ∧ (∀ (uid : String) (l : List RawTask) (t' : RawTask),
        t' ∈ repairTasks uid l ↔
          ∃ t ∈ l,
            (jsTruthyId t.userId = true ∧ t.userId = some uid ∧ t' = t)
            ∨ (jsTruthyId t.userId = false ∧
                t' = { t with userId := some uid }))
    ∧ (∀ (uid : String) (s : TaskStore) (l : List RawTask),
        s (taskKey uid) = some (TCell.tasks l) →
          (loadTasks uid s).1 = repairTasks uid l
          ∧ (loadTasks uid s).2 (taskKey uid) =
              some (TCell.tasks (repairTasks uid l)))
    ∧ (∀ (a b : String) (s : TaskStore) (l : List RawTask),
        a ≠ b →
          (loadTasks b (saveTasksStore a l s)).1 = (loadTasks b s).1) := by
  have hread : ∀ (uid : String) (s1 s2 : TaskStore),
      s1 (taskKey uid) = s2 (taskKey uid) →
        (loadTasks uid s1).1 = (loadTasks uid s2).1 := by
    intro uid s1 s2 h
    unfold loadTasks
    rw [h]
    rcases s2 (taskKey uid) with _ | c
    · rfl
    · rcases c with l | _ <;> rfl
  refine ⟨hread, ?_, ?_, mem_repairTasks, ?_, ?_⟩
  · intro uid s k hk
    unfold loadTasks
    rcases s (taskKey uid) with _ | c
    · rfl
    · rcases c with l | _
      · simp [saveTasksStore, hk]
      · rfl
  · intro uid s t ht
    unfold loadTasks at ht
    rcases hcell : s (taskKey uid) with _ | c
    · rw [hcell] at ht; simp at ht
    · rcases c with l | _
      · rw [hcell] at ht
        exact repairTasks_userId uid l t ht
      · rw [hcell] at ht; simp at ht
  · intro uid s l h
    unfold loadTasks
    rw [h]
    exact ⟨rfl, by simp [saveTasksStore]⟩
  · intro a b s l hab
    apply hread
    simp only [saveTasksStore]
    rw [if_neg (fun hkey => hab (taskKey_inj b a hkey).symm)]

theorem C1_load_ownership_isolation_witness :
    demoStore (taskKey ("admin123")) = demoStore2 (taskKey ("admin123"))
    ∧ (loadTasks ("admin123") demoStore).1 = (loadTasks ("admin123") demoStore2).1
    ∧ ("other" : String) ≠ taskKey ("admin123")
    ∧ (loadTasks ("admin123") demoStore).2 ("other") = demoStore ("other")
    ∧ demoOwnedAdmin ∈ (loadTasks ("admin123") demoStore).1
    ∧ demoOwnedAdmin.userId = some ("admin123")
    ∧ demoStore (taskKey ("admin123")) = some (TCell.tasks demoList)
    ∧ (loadTasks ("admin123") demoStore).2 (taskKey ("admin123")) =
        some (TCell.tasks (repairTasks ("admin123") demoList))
    ∧ ("user456" : String) ≠ ("admin123" : String)
    ∧ (loadTasks ("admin123") (saveTasksStore ("user456") demoList demoStore)).1 =
        (loadTasks ("admin123") demoStore).1 :=
  ⟨by decide,
   C1_load_ownership_isolation.1 ("admin123") demoStore demoStore2 (by decide),
   by decide,
   C1_load_ownership_isolation.2.1 ("admin123") demoStore ("other") (by decide),
   by decide,
   C1_load_ownership_isolation.2.2.1 ("admin123") demoStore demoOwnedAdmin
     (by decide),
   by decide,
   (C1_load_ownership_isolation.2.2.2.2.1 ("admin123") demoStore demoList
     (by decide)).2,
   by decide,
   C1_load_ownership_isolation.2.2.2.2.2 ("user456") ("admin123") demoStore
     demoList (by decide)⟩

theorem findUser_admin (input pw : String)
    (h : normalizeId input = toLowerChars ("admin").data
       ∨ normalizeId input = toLowerChars ("admin@taskmanager.com").data) :
    findUser input pw =
      if pw = ("password123" : String) then
        some ⟨"admin123", "admin", "password123", "admin@taskmanager.com", "admin"⟩
      else none := by
  by_cases hpw : pw = ("password123" : String)
  · subst hpw
    rw [if_pos rfl]
    rcases h with hm | hm <;>
      · simp only [findUser, hm]
        decide
  · rw [if_neg hpw]
    have hb : (("password123" : String) == pw) = false := by
      simp only [beq_eq_false_iff_ne, ne_eq]
      exact fun hc => hpw hc.symm
    by_cases hpw2 : pw = ("user123" : String)
    · subst hpw2
      rcases h with hm | hm <;>
        · simp only [findUser, hm]
          decide
    · have hb2 : (("user123" : String) == pw) = false := by
        simp only [beq_eq_false_iff_ne, ne_eq]
        exact fun hc => hpw2 hc.symm
      rcases h with hm | hm <;>
        · simp only [findUser, MOCK_USERS, hm, List.find?, hb, hb2, Bool.and_false]

theorem findUser_user (input pw : String)
    (h : normalizeId input = toLowerChars ("user").data
       ∨ normalizeId input = toLowerChars ("user@taskmanager.com").data) :
    findUser input pw =
      if pw = ("user123" : String) then
        some ⟨"user456", "user", "user123", "user@taskmanager.com", "user"⟩
      else none := by
  by_cases hpw : pw = ("user123" : String)
  · subst hpw
    rw [if_pos rfl]
    rcases h with hm | hm <;>
      · simp only [findUser, hm]
        decide
  · rw [if_neg hpw]
    have hb2 : (("user123" : String) == pw) = false := by
      simp only [beq_eq_false_iff_ne, ne_eq]
      exact fun hc => hpw hc.symm
    by_cases hpw1 : pw = ("password123" : String)
    · subst hpw1
      rcases h with hm | hm <;>
        · simp only [findUser, hm]
          decide
    · have hb : (("password123" : String) == pw) = false := by
        simp only [beq_eq_false_iff_ne, ne_eq]
        exact fun hc => hpw1 hc.symm
      rcases h with hm | hm <;>
        · simp only [findUser, MOCK_USERS, hm, List.find?, hb, hb2, Bool.and_false]

theorem findUser_spec (u : User) (hu : u ∈ MOCK_USERS) (input pw : String)
    (h : normalizeId input = toLowerChars u.username.data
       ∨ normalizeId input = toLowerChars u.email.data) :
    (findUser input pw = some u ↔ pw = u.password)
    ∧ (pw ≠ u.password → findUser input pw = none) := by
  have hu' : u = (⟨"admin123", "admin", "password123", "admin@taskmanager.com",
        "admin"⟩ : User)
      ∨ u = (⟨"user456", "user", "user123", "user@taskmanager.com",
        "user"⟩ : User) := by
    simpa [MOCK_USERS] using hu
  rcases hu' with rfl | rfl
  · have h' : normalizeId input = toLowerChars (("admin" : String)).data
        ∨ normalizeId input = toLowerChars (("admin@taskmanager.com" : String)).data := h
    rw [findUser_admin input pw h']
    by_cases hpw : pw = ("password123" : String)
    · subst hpw
      simp
    · simp [hpw]
  · have h' : normalizeId input = toLowerChars (("user" : String)).data
        ∨ normalizeId input = toLowerChars (("user@taskmanager.com" : String)).data := h
    rw [findUser_user input pw h']
    by_cases hpw : pw = ("user123" : String)
    · subst hpw
      simp
    · simp [hpw]

/-- C2: for every directory identity, an input normalising (lower-case and
trim) to the identity's username or email finds that identity exactly when
the secret matches the stored password character for character; a correct
pair succeeds and any differing secret (including a case-changed one) yields
no identity. -/
theorem C2_credential_lookup :
    ∀ u ∈ MOCK_USERS,
      (∀ (input pw : String),
          (normalizeId input = toLowerChars u.username.data
            ∨ normalizeId input = toLowerChars u.email.data) →
            (findUser input pw = some u ↔ pw = u.password)
            ∧ (pw ≠ u.password → findUser input pw = none))
      ∧ findUser u.username u.password = some u
      ∧ findUser u.email u.password = some u
      ∧ (∀ pw : String, pw ≠ u.password → findUser u.username pw = none) := by
  intro u hu
  have hu' : u = (⟨"admin123", "admin", "password123", "admin@taskmanager.com",
        "admin"⟩ : User)
      ∨ u = (⟨"user456", "user", "user123", "user@taskmanager.com",
        "user"⟩ : User) := by
    simpa [MOCK_USERS] using hu
  refine ⟨fun input pw h => findUser_spec u hu input pw h, ?_, ?_, ?_⟩
  · rcases hu' with rfl | rfl <;> decide
  · rcases hu' with rfl | rfl <;> decide
  · intro pw hpw
    rcases hu' with rfl | rfl
    · exact (findUser_spec _ hu _ pw (Or.inl (by decide))).2 hpw
    · exact (findUser_spec _ hu _ pw (Or.inl (by decide))).2 hpw

theorem C2_credential_lookup_witness :
    adminUser ∈ MOCK_USERS
    ∧ findUser ("admin") ("password123") = some adminUser
    ∧ ("Password123" : String) ≠ adminUser.password
    ∧ findUser ("admin") ("Password123") = none :=
  ⟨by decide,
   (C2_credential_lookup adminUser (by decide)).2.1,
   by decide,
   (C2_credential_lookup adminUser (by decide)).2.2.2 ("Password123") (by decide)⟩

/-- C10: the lookup lower-cases and trims its identifier-or-alias argument,
so an identifier or an email alias surrounded by whitespace still matches —
both via the general normalisation hypothesis and at concrete
whitespace-padded username and email inputs; the secret is compared exactly
and untrimmed, so a secret with added surrounding whitespace fails. -/
theorem C10_lookup_trims_input :
    ∀ u ∈ MOCK_USERS,
      (∀ input : String, normalizeId input = toLowerChars u.username.data →
          findUser input u.password = some u)
      ∧ (∀ input : String, normalizeId input = toLowerChars u.email.data →
          findUser input u.password = some u)
      ∧ findUser (String.mk ((" ").data ++ u.username.data ++ ("  ").data))
          u.password = some u
      ∧ findUser (String.mk ((" ").data ++ u.email.data ++ ("  ").data))
          u.password = some u
      ∧ findUser u.username (String.mk ((" ").data ++ u.password.data)) = none
      ∧ findUser u.username (String.mk (u.password.data ++ (" ").data)) = none := by
  intro u hu
  have hu' : u = (⟨"admin123", "admin", "password123", "admin@taskmanager.com",
        "admin"⟩ : User)
      ∨ u = (⟨"user456", "user", "user123", "user@taskmanager.com",
        "user"⟩ : User) := by
    simpa [MOCK_USERS] using hu
  refine ⟨fun input h =>
      (findUser_spec u hu input u.password (Or.inl h)).1.mpr rfl,
    fun input h =>
      (findUser_spec u hu input u.password (Or.inr h)).1.mpr rfl,
    ?_, ?_, ?_, ?_⟩
  · rcases hu' with rfl | rfl <;> decide
  · rcases hu' with rfl | rfl <;> decide
  · rcases hu' with rfl | rfl <;> decide
  · rcases hu' with rfl | rfl <;> decide

theorem C10_lookup_trims_input_witness :
    adminUser ∈ MOCK_USERS
    ∧ normalizeId ("  ADMIN ") = toLowerChars adminUser.username.data
    ∧ findUser ("  ADMIN ") ("password123") = some adminUser
    ∧ normalizeId (" Admin@Taskmanager.Com  ") = toLowerChars adminUser.email.data
    ∧ findUser (" Admin@Taskmanager.Com  ") ("password123") = some adminUser
    ∧ findUser (String.mk ((" ").data ++ adminUser.email.data ++ ("  ").data))
        ("password123") = some adminUser
    ∧ findUser ("admin") (String.mk (("password123").data ++ (" ").data)) = none :=
  ⟨by decide,
   by decide,
   (C10_lookup_trims_input adminUser (by decide)).1 ("  ADMIN ") (by decide),
   by decide,
   (C10_lookup_trims_input adminUser (by decide)).2.1 (" Admin@Taskmanager.Com  ")
     (by decide),
   (C10_lookup_trims_input adminUser (by decide)).2.2.2.1,
   (C10_lookup_trims_input adminUser (by decide)).2.2.2.2.2⟩

/-- C3: when either field is empty or no directory entry matches, `login`
returns a failure result carrying one of the two invalid-credential
messages, creates no session, leaves the whole state (including the
persistent medium) untouched, and cannot make `isAuthenticated` true. -/
theorem C3_login_failure_atomic :
    ∀ (st : AuthState) (input pw : String) (now : Nat),
      (input = "" ∨ pw = "" ∨ findUser input pw = none) →
        (login st input pw now).1.success = false
        ∧ ((login st input pw now).1.error =
              some ("Username and password are required")
           ∨ (login st input pw now).1.error =
              some ("Invalid username or password"))
        ∧ (login st input pw now).1.user = none
        ∧ (login st input pw now).2 = st
        ∧ isAuthenticatedM (login st input pw now).2 = isAuthenticatedM st := by
  intro st input pw now h
  by_cases hc : input = ("" : String) ∨ pw = ("" : String)
  · simp [login, hc]
  · have hf : findUser input pw = none := by
      rcases h with h | h | h
      · exact absurd (Or.inl h) hc
      · exact absurd (Or.inr h) hc
      · exact h
    simp [login, hc, hf]

theorem C3_login_failure_atomic_witness :
    findUser ("admin") ("wrong") = none
    ∧ (login ⟨none, none, fun _ => none⟩ ("admin") ("wrong") 0).1.success = false
    ∧ (login ⟨none, none, fun _ => none⟩ ("admin") ("wrong") 0).2 =
        ⟨none, none, fun _ => none⟩
    ∧ isAuthenticatedM
        (login ⟨none, none, fun _ => none⟩ ("admin") ("wrong") 0).2 = false :=
  ⟨by decide,
   (C3_login_failure_atomic ⟨none, none, fun _ => none⟩ ("admin") ("wrong") 0
     (Or.inr (Or.inr (by decide)))).1,
   (C3_login_failure_atomic ⟨none, none, fun _ => none⟩ ("admin") ("wrong") 0
     (Or.inr (Or.inr (by decide)))).2.2.2.1,
   by
     rw [(C3_login_failure_atomic ⟨none, none, fun _ => none⟩ ("admin") ("wrong")
       0 (Or.inr (Or.inr (by decide)))).2.2.2.1]
     rfl⟩

/-- C4: neither decoding nor session validation inspects the third token
segment: two tokens agreeing on the header and payload segments but with
arbitrary (dot-free) signature segments decode identically and validate
identically — same boolean outcome, same resulting session and same
resulting storage. -/
theorem C4_signature_noninterference :
    ∀ (hseg pseg s1 s2 : List Char),
      '.' ∉ hseg → '.' ∉ pseg → '.' ∉ s1 → '.' ∉ s2 →
      ∀ (cu : SessionUser) (store : String → Option (List Char)) (now : Nat),
        decodeTokenPayload (hseg ++ '.' :: (pseg ++ '.' :: s1)) =
          decodeTokenPayload (hseg ++ '.' :: (pseg ++ '.' :: s2))
        ∧ (validateSession ⟨some cu, some (hseg ++ '.' :: (pseg ++ '.' :: s1)),
              store⟩ now).1 =
            (validateSession ⟨some cu, some (hseg ++ '.' :: (pseg ++ '.' :: s2)),
              store⟩ now).1
        ∧ (validateSession ⟨some cu, some (hseg ++ '.' :: (pseg ++ '.' :: s1)),
              store⟩ now).2.currentUser =
            (validateSession ⟨some cu, some (hseg ++ '.' :: (pseg ++ '.' :: s2)),
              store⟩ now).2.currentUser
        ∧ (validateSession ⟨some cu, some (hseg ++ '.' :: (pseg ++ '.' :: s1)),
              store⟩ now).2.store =
            (validateSession ⟨some cu, some (hseg ++ '.' :: (pseg ++ '.' :: s2)),
              store⟩ now).2.store := by
  intro hseg pseg s1 s2 hh hp hs1 hs2 cu store now
  have hdec : decodeTokenPayload (hseg ++ '.' :: (pseg ++ '.' :: s1)) =
      decodeTokenPayload (hseg ++ '.' :: (pseg ++ '.' :: s2)) := by
    unfold decodeTokenPayload
    rw [splitOnDot_append _ hh _, splitOnDot_append _ hp _,
      splitOnDot_no_dot _ hs1, splitOnDot_append _ hh _,
      splitOnDot_append _ hp _, splitOnDot_no_dot _ hs2]
  refine ⟨hdec, ?_⟩
  simp only [validateSession, hdec]
  rcases decodeTokenPayload (hseg ++ '.' :: (pseg ++ '.' :: s2)) with _ | p
  · exact ⟨rfl, rfl, rfl⟩
  · by_cases hexp : p.exp < now
    · simp [hexp, logoutState]
    · simp [hexp]

theorem C4_signature_noninterference_witness :
    ('.' : Char) ∉ (("hdr").data) ∧ ('.' : Char) ∉ (("pay").data) ∧
    ('.' : Char) ∉ (("sig1").data) ∧ ('.' : Char) ∉ (("tampered").data) ∧
    decodeTokenPayload (("hdr").data ++ '.' ::
        ((("pay").data) ++ '.' :: (("sig1").data))) =
      decodeTokenPayload (("hdr").data ++ '.' ::
        ((("pay").data) ++ '.' :: (("tampered").data))) :=
  ⟨by decide, by decide, by decide, by decide,
   (C4_signature_noninterference (("hdr").data) (("pay").data) (("sig1").data)
     (("tampered").data) (by decide) (by decide) (by decide) (by decide)
     ⟨("a"), ("a"), ("a"), ("a"), true, 0⟩ (fun _ => none) 0).1⟩

/-- C5: for every directory identity, decoding the freshly generated token
recovers the full payload — subject id, username alias, email, role, the
issue time, and an expiry equal to the issue time plus 24 hours — and the
expiry check is false at the issue instant and true at any instant strictly
beyond issue time plus 24 hours. -/
theorem C5_token_roundtrip_expiry :
    ∀ u ∈ MOCK_USERS, ∀ now : Nat,
      decodeTokenPayload (generateMockToken u now) = some (tokenPayload u now)
      ∧ (tokenPayload u now).sub = u.id.data
      ∧ (tokenPayload u now).username = u.username.data
      ∧ (tokenPayload u now).email = u.email.data
      ∧ (tokenPayload u now).role = u.role.data
      ∧ (tokenPayload u now).iat = now
      ∧ (tokenPayload u now).exp = (tokenPayload u now).iat + 24 * 60 * 60 * 1000
      ∧ isExpiredB now (tokenPayload u now) = false
      ∧ (∀ t : Nat, (tokenPayload u now).iat + 24 * 60 * 60 * 1000 < t →
          isExpiredB t (tokenPayload u now) = true) := by
  intro u hu now
  have hu' : u = (⟨"admin123", "admin", "password123", "admin@taskmanager.com",
        "admin"⟩ : User)
      ∨ u = (⟨"user456", "user", "user123", "user@taskmanager.com",
        "user"⟩ : User) := by
    simpa [MOCK_USERS] using hu
  have hdec : decodeTokenPayload (generateMockToken u now) =
      some (tokenPayload u now) := by
    rcases hu' with rfl | rfl <;>
      exact decode_generate _ now (by unfold goodStr; decide)
        (by unfold goodStr; decide) (by unfold goodStr; decide)
        (by unfold goodStr; decide)
  refine ⟨hdec, rfl, rfl, rfl, rfl, rfl, rfl, ?_, ?_⟩
  · simp only [isExpiredB, tokenPayload, decide_eq_false_iff_not]
    omega
  · intro t ht
    simp only [isExpiredB, decide_eq_true_eq]
    simp only [tokenPayload] at ht ⊢
    omega

theorem C5_token_roundtrip_expiry_witness :
    adminUser ∈ MOCK_USERS
    ∧ decodeTokenPayload (generateMockToken adminUser 0) =
        some (tokenPayload adminUser 0)
    ∧ isExpiredB 0 (tokenPayload adminUser 0) = false
    ∧ (tokenPayload adminUser 0).iat + 24 * 60 * 60 * 1000 < 86400001
    ∧ isExpiredB 86400001 (tokenPayload adminUser 0) = true :=
  ⟨by decide,
   (C5_token_roundtrip_expiry adminUser (by decide) 0).1,
   (C5_token_roundtrip_expiry adminUser (by decide) 0).2.2.2.2.2.2.2.1,
   by decide,
   (C5_token_roundtrip_expiry adminUser (by decide) 0).2.2.2.2.2.2.2.2 86400001
     (by decide)⟩

theorem setItemString_get0 (inner tag : List Char) (t : Nat) :
    (setItemString inner tag t).get? 0 = some ('\x7b') := rfl

theorem setItemString_get2 (inner tag : List Char) (t : Nat) :
    (setItemString inner tag t).get? 2 = some ('v') := rfl

theorem saveTasksString_get0 (l : List RawTask) :
    (saveTasksString l).get? 0 = some ('[') := rfl

theorem generateMockToken_get0 (u : User) (now : Nat) :
    (generateMockToken u now).get? 0 = some ('e') := rfl

theorem sessionUserJson_get2 (cu : SessionUser) :
    (sessionUserJson cu).get? 2 = some ('i') := rfl

/-- C6 counterexample: the string `saveTasks` persists for a concrete task
list is the bare serialized array — it is not the serialized
value/timestamp/type envelope for any inner value, tag or timestamp, so the
claim that every persisted value is enveloped fails on the task-list path
(which writes through `localStorage` directly, bypassing the adapter). -/
theorem C6_persisted_envelope_counterexample :
    ¬ ∃ (inner tag : List Char) (t : Nat),
        saveTasksString demoList = setItemString inner tag t := by
  rintro ⟨inner, tag, t, heq⟩
  have h0 : (saveTasksString demoList).get? 0 = (setItemString inner tag t).get? 0 :=
    congrArg (fun x => x.get? 0) heq
  rw [saveTasksString_get0, setItemString_get0] at h0
  exact absurd (Option.some.inj h0) (by decide)

/-- C6 amended: only writes issued through the adapter's `setItem` carry the
value/timestamp/type envelope.  The core session and task persistence paths
bypass it: the string `saveTasks` writes is never an envelope, the token and
session-record strings `saveUserSession` writes raw are never envelopes, and
`saveUserSession` stores exactly the bare token, session JSON and login
timestamp under their keys. -/
theorem C6_envelope_only_through_adapter :
    (∀ (l : List RawTask) (inner tag : List Char) (t : Nat),
        decide (saveTasksString l = setItemString inner tag t) = false)
    ∧ (∀ (u : User) (now : Nat) (inner tag : List Char) (t : Nat),
        decide (generateMockToken u now = setItemString inner tag t) = false)
    ∧ (∀ (cu : SessionUser) (inner tag : List Char) (t : Nat),
        decide (sessionUserJson cu = setItemString inner tag t) = false)
    ∧ (∀ (cu : SessionUser) (tok : List Char) (now : Nat)
          (s : String → Option (List Char)),
        saveSessionStore cu tok now s ("taskManager_authToken") = some tok
        ∧ saveSessionStore cu tok now s ("taskManager_userSession") =
            some (sessionUserJson cu)
        ∧ saveSessionStore cu tok now s ("taskManager_loginTime") =
            some (natChars now)) := by
  refine ⟨?_, ?_, ?_, ?_⟩
  · intro l inner tag t
    rw [decide_eq_false_iff_not]
    intro heq
    have h0 : (saveTasksString l).get? 0 = (setItemString inner tag t).get? 0 :=
      congrArg (fun x => x.get? 0) heq
    rw [saveTasksString_get0, setItemString_get0] at h0
    exact absurd (Option.some.inj h0) (by decide)
  · intro u now inner tag t
    rw [decide_eq_false_iff_not]
    intro heq
    have h0 : (generateMockToken u now).get? 0 =
        (setItemString inner tag t).get? 0 :=
      congrArg (fun x => x.get? 0) heq
    rw [generateMockToken_get0, setItemString_get0] at h0
    exact absurd (Option.some.inj h0) (by decide)
  · intro cu inner tag t
    rw [decide_eq_false_iff_not]
    intro heq
    have h0 : (sessionUserJson cu).get? 2 = (setItemString inner tag t).get? 2 :=
      congrArg (fun x => x.get? 2) heq
    rw [sessionUserJson_get2, setItemString_get2] at h0
    exact absurd (Option.some.inj h0) (by decide)
  · intro cu tok now s
    refine ⟨?_, ?_, ?_⟩ <;> simp [saveSessionStore]
